import Mathlib

/-!
Shallow embedding of `src/sound.rs` (Game Boy APU emulation) from the rboy
repository.  Machine integers (`u8`, `u16`, `u32`) are modelled as `Nat`;
the source never relies on wrap-around except for the noise channel's
16-bit left shift, which is modelled with an explicit `% 65536`.  The
band-limited buffer (`blip_buf::BlipBuf`) is external; `add_delta` is
modelled by appending the `(time, delta)` event to a list.  `i32`
amplitudes are modelled as `Int`.
-/

/-- `CLOCKS_PER_SECOND : u32 = 1 << 22`. -/
def CLOCKS_PER_SECOND : Nat := 4194304

/-- The four duty-cycle patterns `WAVE_PATTERN : [[i32; 8]; 4]`. -/
def WAVE_PATTERN : List (List Int) :=
  [[-1,-1,-1,-1,1,-1,-1,-1],[-1,-1,-1,-1,1,1,-1,-1],[-1,-1,1,1,1,1,-1,-1],[1,1,1,1,-1,-1,1,1]]

/-- `WAVE_PATTERN[duty][phase]`; in the source both indices are always in
range (`duty = v >> 6 ≤ 3`, `phase` is kept `% 8`), so out-of-range
defaults are never used. -/
def wavePattern (duty phase : Nat) : Int :=
  (WAVE_PATTERN.getD duty []).getD phase 0

/-- struct VolumeEnvelope. -/
structure VolumeEnvelope where
  period : Nat
  goes_up : Bool
  delay : Nat
  initial_volume : Nat
  volume : Nat

/-- VolumeEnvelope::new. -/
def VolumeEnvelope.new : VolumeEnvelope :=
  { period := 0, goes_up := false, delay := 0, initial_volume := 0, volume := 0 }

/-- VolumeEnvelope::wb. -/
def VolumeEnvelope.wb (e : VolumeEnvelope) (a v : Nat) : VolumeEnvelope :=
  if a = 0xFF12 ∨ a = 0xFF17 ∨ a = 0xFF21 then
    { e with
      period := v &&& 0x7
      goes_up := v &&& 0x8 == 0x8
      initial_volume := v >>> 4
      volume := v >>> 4 }
  else if (a = 0xFF14 ∨ a = 0xFF19 ∨ a = 0xFF23) ∧ v &&& 0x80 = 0x80 then
    { e with delay := e.period, volume := e.initial_volume }
  else e

/-- VolumeEnvelope::step. -/
def VolumeEnvelope.step (e : VolumeEnvelope) : VolumeEnvelope :=
  if 1 < e.delay then
    { e with delay := e.delay - 1 }
  else if e.delay = 1 then
    { e with
      delay := e.period
      volume :=
        if e.goes_up = true ∧ e.volume < 15 then e.volume + 1
        else if e.goes_up = false ∧ 0 < e.volume then e.volume - 1
        else e.volume }
  else e

/-- struct SquareChannel; `blip` is the event list of the channel's
band-limited buffer. -/
structure SquareChannel where
  enabled : Bool
  duty : Nat
  phase : Nat
  length : Nat
  new_length : Nat
  length_enabled : Bool
  frequency : Nat
  period : Nat
  last_amp : Int
  delay : Nat
  has_sweep : Bool
  sweep_frequency : Nat
  sweep_delay : Nat
  sweep_period : Nat
  sweep_shift : Nat
  sweep_by_adding : Bool
  volume_envelope : VolumeEnvelope
  blip : List (Nat × Int)

/-- SquareChannel::new. -/
def SquareChannel.new (blip : List (Nat × Int)) (with_sweep : Bool) : SquareChannel :=
  { enabled := false
    duty := 1
    phase := 1
    length := 0
    new_length := 0
    length_enabled := false
    frequency := 0
    period := 2048
    last_amp := 0
    delay := 0
    has_sweep := with_sweep
    sweep_frequency := 0
    sweep_delay := 0
    sweep_period := 0
    sweep_shift := 0
    sweep_by_adding := false
    volume_envelope := VolumeEnvelope.new
    blip := blip }

/-- SquareChannel::on. -/
def SquareChannel.on (c : SquareChannel) : Bool :=
  c.enabled && (!c.length_enabled || c.length != 0)

/-- SquareChannel::calculate_period. -/
def SquareChannel.calculate_period (c : SquareChannel) : SquareChannel :=
  if 2048 < c.frequency then { c with period := 0 }
  else { c with period := (2048 - c.frequency) * 4 }

/-- SquareChannel::step_sweep. -/
def SquareChannel.step_sweep (c : SquareChannel) : SquareChannel :=
  if c.has_sweep = false ∨ c.sweep_period = 0 then c
  else if 1 < c.sweep_delay then { c with sweep_delay := c.sweep_delay - 1 }
  else
    let c1 := ({ c with sweep_delay := c.sweep_period,
                        frequency := c.sweep_frequency }).calculate_period
    let offset := c1.sweep_frequency >>> c1.sweep_shift
    if c1.sweep_by_adding = true then
      if 2048 - offset ≤ c1.sweep_frequency then
        { c1 with sweep_delay := 0, sweep_frequency := 2048 }
      else
        { c1 with sweep_frequency := c1.sweep_frequency + offset }
    else
      if c1.sweep_frequency ≤ offset then { c1 with sweep_frequency := 0 }
      else { c1 with sweep_frequency := c1.sweep_frequency - offset }

/-- SquareChannel::wb.  As in the source, the match on the address happens
first and the embedded envelope sees the same write afterwards. -/
def SquareChannel.wb (c : SquareChannel) (a v : Nat) : SquareChannel :=
  let c' :=
    if a = 0xFF10 ∧ c.has_sweep = true then
      { c with
        sweep_period := (v >>> 4) &&& 0x7
        sweep_shift := v &&& 0x7
        sweep_by_adding := v &&& 0x8 == 0x8 }
    else if a = 0xFF11 ∨ a = 0xFF16 then
      { c with duty := v >>> 6, new_length := 64 - (v &&& 0x3F) }
    else if a = 0xFF13 ∨ a = 0xFF18 then
      ({ c with
        frequency := (c.frequency &&& 0x0700) ||| v
        length := c.new_length }).calculate_period
    else if a = 0xFF14 ∨ a = 0xFF19 then
      let c1 := ({ c with
        frequency := (c.frequency &&& 0x00FF) ||| ((v &&& 0b0111) <<< 8)
        }).calculate_period
      let c2 := { c1 with length_enabled := v &&& 0x40 == 0x40 }
      if v &&& 0x80 = 0x80 then
        let c3 := { c2 with
          enabled := true
          length := c2.new_length
          sweep_frequency := c2.frequency }
        if c3.has_sweep = true ∧ 0 < c3.sweep_period ∧ 0 < c3.sweep_shift then
          ({ c3 with sweep_delay := 1 }).step_sweep
        else c3
      else c2
    else c
  { c' with volume_envelope := c'.volume_envelope.wb a v }

/-- The `while time < end_time` loop of SquareChannel::run, returning the
final `(time, phase, last_amp, blip)`.  The loop is only ever entered from
`run` with `period ≠ 0` (the `period == 0` case takes the silent branch),
so positivity of `period` is part of the exit condition here to make the
recursion well-founded; on the source's inputs the behaviour is identical. -/
def squareLoop (duty : Nat) (vol : Int) (period end_time : Nat)
    (time phase : Nat) (last_amp : Int) (blip : List (Nat × Int)) :
    Nat × Nat × Int × List (Nat × Int) :=
  if h : time < end_time ∧ 0 < period then
    let amp := vol * wavePattern duty phase
    if amp ≠ last_amp then
      squareLoop duty vol period end_time (time + period) ((phase + 1) % 8)
        amp (blip ++ [(time, amp - last_amp)])
    else
      squareLoop duty vol period end_time (time + period) ((phase + 1) % 8)
        last_amp blip
  else (time, phase, last_amp, blip)
termination_by end_time - time
decreasing_by all_goals omega

/-- SquareChannel::run. -/
def SquareChannel.run (c : SquareChannel) (start_time end_time : Nat) : SquareChannel :=
  if c.enabled = false ∨ (c.length = 0 ∧ c.length_enabled = true) ∨ c.period = 0 then
    if c.last_amp ≠ 0 then
      { c with blip := c.blip ++ [(start_time, -c.last_amp)], last_amp := 0, delay := 0 }
    else c
  else
    let r := squareLoop c.duty (c.volume_envelope.volume : Int) c.period end_time
      (start_time + c.delay) c.phase c.last_amp c.blip
    { c with phase := r.2.1, last_amp := r.2.2.1, blip := r.2.2.2, delay := r.1 - end_time }

/-- SquareChannel::step_length. -/
def SquareChannel.step_length (c : SquareChannel) : SquareChannel :=
  if c.length_enabled = true ∧ c.length ≠ 0 then { c with length := c.length - 1 }
  else c

/-- struct WaveChannel; `waveram` is the 32-entry nibble array. -/
structure WaveChannel where
  enabled : Bool
  enabled_flag : Bool
  length : Nat
  new_length : Nat
  length_enabled : Bool
  frequency : Nat
  period : Nat
  last_amp : Int
  delay : Nat
  volume_shift : Nat
  waveram : List Nat
  current_wave : Nat
  blip : List (Nat × Int)

/-- WaveChannel::new. -/
def WaveChannel.new (blip : List (Nat × Int)) : WaveChannel :=
  { enabled := false
    enabled_flag := false
    length := 0
    new_length := 0
    length_enabled := false
    frequency := 0
    period := 2048
    last_amp := 0
    delay := 0
    volume_shift := 0
    waveram := List.replicate 32 0
    current_wave := 0
    blip := blip }

/-- WaveChannel::calculate_period. -/
def WaveChannel.calculate_period (c : WaveChannel) : WaveChannel :=
  if 2048 < c.frequency then { c with period := 0 }
  else { c with period := (2048 - c.frequency) * 2 }

/-- WaveChannel::wb. -/
def WaveChannel.wb (c : WaveChannel) (a v : Nat) : WaveChannel :=
  if a = 0xFF1A then
    if v &&& 0x80 = 0x80 then { c with enabled_flag := true }
    else { c with enabled_flag := false, enabled := false }
  else if a = 0xFF1B then { c with new_length := 256 - v }
  else if a = 0xFF1C then { c with volume_shift := v >>> 5 }
  else if a = 0xFF1D then
    ({ c with frequency := (c.frequency &&& 0xFF00) ||| v }).calculate_period
  else if a = 0xFF1E then
    let c1 := ({ c with
      frequency := (c.frequency &&& 0x00FF) ||| ((v &&& 0b111) <<< 8) }).calculate_period
    let c2 := { c1 with length_enabled := v &&& 0x40 == 0x40 }
    if v &&& 0x80 = 0x80 ∧ c2.enabled_flag = true then
      { c2 with length := c2.new_length, enabled := true, current_wave := 0 }
    else c2
  else if 0xFF30 ≤ a ∧ a ≤ 0xFF3F then
    { c with waveram :=
        (c.waveram.set ((a - 0xFF30) / 2) (v >>> 4)).set ((a - 0xFF30) / 2 + 1) (v &&& 0xF) }
  else c

/-- WaveChannel::on. -/
def WaveChannel.on (c : WaveChannel) : Bool :=
  c.enabled && (!c.length_enabled || c.length != 0)

/-- The `while time < end_time` loop of WaveChannel::run, returning the
final `(time, current_wave, last_amp, blip)`.  As for `squareLoop`,
`0 < period` is part of the exit condition only for well-foundedness; the
loop is entered from `run` only when `period ≠ 0`. -/
def waveLoop (waveram : List Nat) (volume_shift : Nat) (period end_time : Nat)
    (time current_wave : Nat) (last_amp : Int) (blip : List (Nat × Int)) :
    Nat × Nat × Int × List (Nat × Int) :=
  if h : time < end_time ∧ 0 < period then
    let sample := waveram.getD current_wave 0
    let amp : Int :=
      if 1 ≤ volume_shift ∧ volume_shift ≤ 3 then (sample >>> (volume_shift - 1) : Nat)
      else 0
    if amp ≠ last_amp then
      waveLoop waveram volume_shift period end_time (time + period)
        ((current_wave + 1) % 32) amp (blip ++ [(time, amp - last_amp)])
    else
      waveLoop waveram volume_shift period end_time (time + period)
        ((current_wave + 1) % 32) last_amp blip
  else (time, current_wave, last_amp, blip)
termination_by end_time - time
decreasing_by all_goals omega

/-- WaveChannel::run. -/
def WaveChannel.run (c : WaveChannel) (start_time end_time : Nat) : WaveChannel :=
  if c.enabled = false ∨ (c.length = 0 ∧ c.length_enabled = true) ∨ c.period = 0 then
    if c.last_amp ≠ 0 then
      { c with blip := c.blip ++ [(start_time, -c.last_amp)], last_amp := 0, delay := 0 }
    else c
  else
    let r := waveLoop c.waveram c.volume_shift c.period end_time
      (start_time + c.delay) c.current_wave c.last_amp c.blip
    { c with current_wave := r.2.1, last_amp := r.2.2.1, blip := r.2.2.2,
             delay := r.1 - end_time }

/-- WaveChannel::step_length. -/
def WaveChannel.step_length (c : WaveChannel) : WaveChannel :=
  if c.length_enabled = true ∧ c.length ≠ 0 then { c with length := c.length - 1 }
  else c

/-- struct NoiseChannel; `state` is the 16-bit LFSR. -/
structure NoiseChannel where
  enabled : Bool
  length : Nat
  new_length : Nat
  length_enabled : Bool
  volume_envelope : VolumeEnvelope
  period : Nat
  shift_width : Nat
  state : Nat
  delay : Nat
  last_amp : Int
  blip : List (Nat × Int)

/-- NoiseChannel::new. -/
def NoiseChannel.new (blip : List (Nat × Int)) : NoiseChannel :=
  { enabled := false
    length := 0
    new_length := 0
    length_enabled := false
    volume_envelope := VolumeEnvelope.new
    period := 2048
    shift_width := 14
    state := 1
    delay := 0
    last_amp := 0
    blip := blip }

/-- NoiseChannel::wb.  The `0xFF21 => ()` arm only reaches the embedded
envelope, as in the source. -/
def NoiseChannel.wb (c : NoiseChannel) (a v : Nat) : NoiseChannel :=
  let c' :=
    if a = 0xFF20 then { c with new_length := 64 - (v &&& 0x3F) }
    else if a = 0xFF22 then
      { c with
        shift_width := if v &&& 8 = 8 then 6 else 14
        period := (if v &&& 7 = 0 then 8 else ((v &&& 7) + 1) * 16) <<< (v >>> 4) }
    else if a = 0xFF23 ∧ v &&& 0x80 = 0x80 then
      { c with enabled := true, length := c.new_length, state := 0xFF, delay := 0 }
    else c
  { c' with volume_envelope := c'.volume_envelope.wb a v }

/-- NoiseChannel::on. -/
def NoiseChannel.on (c : NoiseChannel) : Bool :=
  c.enabled && (!c.length_enabled || c.length != 0)

/-- The `while time < end_time` loop of NoiseChannel::run, returning the
final `(time, state, last_amp, blip)`.  The 16-bit left shift of the LFSR
state is modelled with an explicit `% 65536`.  `0 < period` is part of the
exit condition only for well-foundedness: `period` is 2048 initially and
every NR43 write sets it to at least 8. -/
def noiseLoop (volume shift_width : Nat) (period end_time : Nat)
    (time state : Nat) (last_amp : Int) (blip : List (Nat × Int)) :
    Nat × Nat × Int × List (Nat × Int) :=
  if _h : time < end_time ∧ 0 < period then
    let oldstate := state
    let st1 := (state <<< 1) % 65536
    let bit := ((oldstate >>> shift_width) ^^^ (st1 >>> shift_width)) &&& 1
    let st2 := st1 ||| bit
    let amp : Int :=
      if (oldstate >>> shift_width) &&& 1 = 0 then -(volume : Int) else (volume : Int)
    if last_amp ≠ amp then
      noiseLoop volume shift_width period end_time (time + period) st2
        amp (blip ++ [(time, amp - last_amp)])
    else
      noiseLoop volume shift_width period end_time (time + period) st2 last_amp blip
  else (time, state, last_amp, blip)
termination_by end_time - time
decreasing_by all_goals omega

/-- NoiseChannel::run. -/
def NoiseChannel.run (c : NoiseChannel) (start_time end_time : Nat) : NoiseChannel :=
  if c.enabled = false ∨ (c.length_enabled = true ∧ c.length = 0) ∨
      c.volume_envelope.volume = 0 then
    if c.last_amp ≠ 0 then
      { c with blip := c.blip ++ [(start_time, -c.last_amp)], last_amp := 0, delay := 0 }
    else c
  else
    let r := noiseLoop c.volume_envelope.volume c.shift_width c.period end_time
      (start_time + c.delay) c.state c.last_amp c.blip
    { c with state := r.2.1, last_amp := r.2.2.1, blip := r.2.2.2, delay := r.1 - end_time }

/-- NoiseChannel::step_length. -/
def NoiseChannel.step_length (c : NoiseChannel) : NoiseChannel :=
  if c.length_enabled = true ∧ c.length ≠ 0 then { c with length := c.length - 1 }
  else c

/-- struct Sound.  The external `cpal::Voice` is replaced by
`voice_period`, the value of `voice.get_period()`; the rest of the voice
only matters to the external mixer sink. -/
structure Sound where
  «on» : Bool
  registerdata : List Nat
  time : Nat
  prev_time : Nat
  next_time : Nat
  time_divider : Nat
  output_period : Nat
  channel1 : SquareChannel
  channel2 : SquareChannel
  channel3 : WaveChannel
  channel4 : NoiseChannel
  volume_left : Nat
  volume_right : Nat
  voice_period : Nat

/-- Sound::new, for the case where an audio device was obtained.
`output_period` is computed in the source from the external voice's sample
rate, so it is a parameter here, as is `voice_period`. -/
def Sound.new (output_period voice_period : Nat) : Sound :=
  { «on» := false
    registerdata := List.replicate 0x17 0
    time := 0
    prev_time := 0
    next_time := CLOCKS_PER_SECOND / 256
    time_divider := 0
    output_period := output_period
    channel1 := SquareChannel.new [] true
    channel2 := SquareChannel.new [] false
    channel3 := WaveChannel.new []
    channel4 := NoiseChannel.new []
    volume_left := 7
    volume_right := 7
    voice_period := voice_period }

/-- One iteration of the `while self.next_time <= self.time` loop in
Sound::run: run every channel up to `next_time`, step the length counters,
step envelopes or the sweep depending on `time_divider`, and advance the
frame-sequencer clock. -/
def Sound.runCycle (s : Sound) : Sound :=
  let c1 := (s.channel1.run s.prev_time s.next_time).step_length
  let c2 := (s.channel2.run s.prev_time s.next_time).step_length
  let c3 := (s.channel3.run s.prev_time s.next_time).step_length
  let c4 := (s.channel4.run s.prev_time s.next_time).step_length
  let c1 :=
    if s.time_divider = 0 then { c1 with volume_envelope := c1.volume_envelope.step }
    else if s.time_divider &&& 1 = 1 then c1.step_sweep
    else c1
  let c2 :=
    if s.time_divider = 0 then { c2 with volume_envelope := c2.volume_envelope.step }
    else c2
  let c4 :=
    if s.time_divider = 0 then { c4 with volume_envelope := c4.volume_envelope.step }
    else c4
  { s with
    channel1 := c1
    channel2 := c2
    channel3 := c3
    channel4 := c4
    time_divider := (s.time_divider + 1) % 4
    prev_time := s.next_time
    next_time := s.next_time + CLOCKS_PER_SECOND / 256 }

/-- The `while self.next_time <= self.time` loop of Sound::run. -/
def Sound.runLoop (s : Sound) : Sound :=
  if _h : s.next_time ≤ s.time then Sound.runLoop (Sound.runCycle s)
  else s
termination_by s.time + 1 - s.next_time
decreasing_by
  simp only [Sound.runCycle, CLOCKS_PER_SECOND]
  omega

/-- Sound::run. -/
def Sound.run (s : Sound) : Sound :=
  let s1 := Sound.runLoop s
  if s1.prev_time ≠ s1.time then
    { s1 with
      channel1 := s1.channel1.run s1.prev_time s1.time
      channel2 := s1.channel2.run s1.prev_time s1.time
      channel3 := s1.channel3.run s1.prev_time s1.time
      channel4 := s1.channel4.run s1.prev_time s1.time
      prev_time := s1.time }
  else s1

/-- Sound::rb.  `rb` takes `&mut self` (it runs the sequencer first), so it
is modelled as returning the new state together with the byte read. -/
def Sound.rb (s : Sound) (a : Nat) : Sound × Nat :=
  let s1 := s.run
  (s1,
    if 0xFF10 ≤ a ∧ a ≤ 0xFF25 then s1.registerdata.getD (a - 0xFF10) 0
    else if a = 0xFF26 then
      (s1.registerdata.getD (a - 0xFF10) 0 &&& 0xF0)
        ||| (if s1.channel1.on = true then 1 else 0)
        ||| (if s1.channel2.on = true then 2 else 0)
        ||| (if s1.channel3.on = true then 4 else 0)
        ||| (if s1.channel4.on = true then 8 else 0)
    else if 0xFF30 ≤ a ∧ a ≤ 0xFF3F then
      (s1.channel3.waveram.getD ((a - 0xFF30) / 2) 0 <<< 4)
        ||| s1.channel3.waveram.getD ((a - 0xFF30) / 2 + 1) 0
    else 0)

/-- The address dispatch `match` at the end of Sound::wb. -/
def Sound.wbDispatch (s : Sound) (a v : Nat) : Sound :=
  if 0xFF10 ≤ a ∧ a ≤ 0xFF14 then { s with channel1 := s.channel1.wb a v }
  else if 0xFF16 ≤ a ∧ a ≤ 0xFF19 then { s with channel2 := s.channel2.wb a v }
  else if 0xFF1A ≤ a ∧ a ≤ 0xFF1E then { s with channel3 := s.channel3.wb a v }
  else if 0xFF20 ≤ a ∧ a ≤ 0xFF23 then { s with channel4 := s.channel4.wb a v }
  else if a = 0xFF24 then
    { s with volume_left := v &&& 0x7, volume_right := (v >>> 4) &&& 0x7 }
  else if a = 0xFF26 then { s with «on» := v &&& 0x80 == 0x80 }
  else if 0xFF30 ≤ a ∧ a ≤ 0xFF3F then { s with channel3 := s.channel3.wb a v }
  else s

/-- Sound::wb. -/
def Sound.wb (s : Sound) (a v : Nat) : Sound :=
  if a ≠ 0xFF26 ∧ s.«on» = false then s
  else
    let s1 := s.run
    let s2 :=
      if 0xFF10 ≤ a ∧ a ≤ 0xFF26 then
        { s1 with registerdata := s1.registerdata.set (a - 0xFF10) v }
      else s1
    Sound.wbDispatch s2 a v

/-- Sound::do_output.  `end_frame` hands the accumulated band-limited
events of the closed frame to the external mixer sink, modelled by
clearing the event lists; `mix_buffers` only reads APU state and writes to
the external sink. -/
def Sound.do_output (s : Sound) : Sound :=
  if s.voice_period ≤ s.time then
    let s1 := s.run
    { s1 with
      channel1 := { s1.channel1 with blip := [] }
      channel2 := { s1.channel2 with blip := [] }
      channel3 := { s1.channel3 with blip := [] }
      channel4 := { s1.channel4 with blip := [] }
      next_time := s1.next_time - s1.time
      time := 0
      prev_time := 0 }
  else s

/-- Sound::do_cycle. -/
def Sound.do_cycle (s : Sound) (cycles : Nat) : Sound :=
  if s.«on» = false then s
  else
    let s1 := { s with time := s.time + cycles }
    if s1.output_period ≤ s1.time then s1.do_output else s1


/-- Concrete states used by the witness and counterexample theorems below.
`sweepDemoPre` is channel 1 after NR10 = 0x19 (sweep period 1, shift 1,
adding) and NR13 = 0x78; `sweepDemo` additionally triggers via
NR14 = 0x85, giving frequency 0x578 = 1400 with 1400 + 700 ≥ 2048. -/
def sweepDemoPre : SquareChannel := ((SquareChannel.new [] true).wb 0xFF10 0x19).wb 0xFF13 0x78

def sweepDemo : SquareChannel := sweepDemoPre.wb 0xFF14 0x85

def silentDemo : SquareChannel := { SquareChannel.new [] false with delay := 7 }

def flushDemo : SquareChannel := { SquareChannel.new [] false with last_amp := 5 }

def soundOffDemo : Sound := Sound.new 5 9

def soundOnDemo : Sound := { Sound.new 5 9 with «on» := true }

def squareLenDemo : SquareChannel :=
  { SquareChannel.new [] false with enabled := true, length_enabled := true, length := 2 }

def waveLenDemo : WaveChannel :=
  { WaveChannel.new [] with enabled := true, length_enabled := true, length := 2 }

def noiseLenDemo : NoiseChannel :=
  { NoiseChannel.new [] with enabled := true, length_enabled := true, length := 2 }

def envDemo : VolumeEnvelope :=
  { period := 2, goes_up := true, delay := 0, initial_volume := 13, volume := 13 }

theorem list_getD_set_eq (l : List Nat) (i x : Nat) (h : i < l.length) :
    (l.set i x).getD i 0 = x := by
  induction l generalizing i with
  | nil => simp at h
  | cons a t ih =>
    cases i with
    | zero => rfl
    | succ n => simpa using ih n (by simpa using h)

theorem list_getD_set_ne (l : List Nat) (i j x : Nat) (h : i ≠ j) :
    (l.set i x).getD j 0 = l.getD j 0 := by
  induction l generalizing i j with
  | nil => rfl
  | cons a t ih =>
    cases i with
    | zero => cases j with
      | zero => exact absurd rfl h
      | succ m => rfl
    | succ n => cases j with
      | zero => rfl
      | succ m => simpa using ih n m (by omega)

set_option maxRecDepth 4096 in
theorem nibble_repack : ∀ v < 256, ((v >>> 4) <<< 4) ||| (v &&& 0xF) = v := by decide

theorem WaveChannel.run_keeps_waveram (c : WaveChannel) (a b : Nat) :
    (c.run a b).waveram = c.waveram := by
  unfold WaveChannel.run
  split
  · split <;> rfl
  · rfl

theorem WaveChannel.step_length_waveram (c : WaveChannel) :
    c.step_length.waveram = c.waveram := by
  unfold WaveChannel.step_length
  split <;> rfl

theorem Sound.runCycle_registerdata (s : Sound) :
    (Sound.runCycle s).registerdata = s.registerdata := rfl

theorem Sound.runCycle_on (s : Sound) : (Sound.runCycle s).«on» = s.«on» := rfl

theorem Sound.runCycle_waveram (s : Sound) :
    (Sound.runCycle s).channel3.waveram = s.channel3.waveram := by
  show ((s.channel3.run s.prev_time s.next_time).step_length).waveram = s.channel3.waveram
  rw [WaveChannel.step_length_waveram, WaveChannel.run_keeps_waveram]

theorem Sound.runLoop_registerdata (s : Sound) :
    (Sound.runLoop s).registerdata = s.registerdata := by
  induction s using Sound.runLoop.induct with
  | case1 s h ih =>
    rw [Sound.runLoop, dif_pos h, ih, Sound.runCycle_registerdata]
  | case2 s h =>
    rw [Sound.runLoop, dif_neg h]

theorem Sound.runLoop_on (s : Sound) : (Sound.runLoop s).«on» = s.«on» := by
  induction s using Sound.runLoop.induct with
  | case1 s h ih => rw [Sound.runLoop, dif_pos h, ih, Sound.runCycle_on]
  | case2 s h => rw [Sound.runLoop, dif_neg h]

theorem Sound.runLoop_waveram (s : Sound) :
    (Sound.runLoop s).channel3.waveram = s.channel3.waveram := by
  induction s using Sound.runLoop.induct with
  | case1 s h ih => rw [Sound.runLoop, dif_pos h, ih, Sound.runCycle_waveram]
  | case2 s h => rw [Sound.runLoop, dif_neg h]

theorem Sound.run_registerdata (s : Sound) : s.run.registerdata = s.registerdata := by
  unfold Sound.run
  dsimp only
  split
  · exact Sound.runLoop_registerdata s
  · exact Sound.runLoop_registerdata s

theorem Sound.run_on (s : Sound) : s.run.«on» = s.«on» := by
  unfold Sound.run
  dsimp only
  split
  · exact Sound.runLoop_on s
  · exact Sound.runLoop_on s

theorem Sound.run_waveram (s : Sound) :
    s.run.channel3.waveram = s.channel3.waveram := by
  unfold Sound.run
  dsimp only
  split
  · show ((Sound.runLoop s).channel3.run _ _).waveram = _
    rw [WaveChannel.run_keeps_waveram]
    exact Sound.runLoop_waveram s
  · exact Sound.runLoop_waveram s

theorem Sound.wbDispatch_registerdata (s : Sound) (a v : Nat) :
    (Sound.wbDispatch s a v).registerdata = s.registerdata := by
  unfold Sound.wbDispatch
  repeat' split
  all_goals rfl

theorem Sound.wbDispatch_on_ne (s : Sound) (a v : Nat) (h : a ≠ 0xFF26) :
    (Sound.wbDispatch s a v).«on» = s.«on» := by
  unfold Sound.wbDispatch
  repeat' split
  all_goals first | rfl | omega

theorem Sound.wbDispatch_ff26 (s : Sound) (v : Nat) :
    (Sound.wbDispatch s 0xFF26 v).«on» = (v &&& 0x80 == 0x80) := by
  unfold Sound.wbDispatch
  repeat' split
  all_goals first | rfl | omega

/-- C4: for every address other than 0xFF26 and every byte, a write while the
APU master enable is off leaves the entire APU state (register file, all four
channels, wave RAM, master volumes and all timing fields) unchanged:
`Sound::wb` returns before doing anything. -/
theorem sound_wb_off_noop (s : Sound) (a v : Nat)
    (ha : a ≠ 0xFF26) (hoff : s.«on» = false) : s.wb a v = s := by
  unfold Sound.wb
  rw [if_pos ⟨ha, hoff⟩]

/-- C3: for every address `a` in [0xFF10, 0xFF25], with the APU on, writing a
byte `v` and then reading `a` back returns exactly `v`: the write stores `v`
in the register file, nothing on the read path (including the frame-sequencer
`run`) modifies the register file, and `rb` returns the stored byte. -/
theorem sound_register_roundtrip (s : Sound) (a v : Nat)
    (hon : s.«on» = true) (hlen : s.registerdata.length = 0x17)
    (ha1 : 0xFF10 ≤ a) (ha2 : a ≤ 0xFF25) :
    ((s.wb a v).rb a).2 = v := by
  have hwb : (s.wb a v).registerdata = s.run.registerdata.set (a - 0xFF10) v := by
    unfold Sound.wb
    rw [if_neg (by simp [hon])]
    dsimp only
    rw [Sound.wbDispatch_registerdata]
    rw [if_pos ⟨ha1, by omega⟩]
  unfold Sound.rb
  dsimp only
  rw [if_pos ⟨ha1, ha2⟩]
  rw [Sound.run_registerdata, hwb]
  apply list_getD_set_eq
  have : s.run.registerdata.length = 0x17 := by rw [Sound.run_registerdata]; exact hlen
  omega

/-- C5: for every index `k < 16` and byte `v`, with the APU on, writing `v` to
`0xFF30 + k` and then reading `0xFF30 + k` back returns exactly `v`: `rb`
re-packs the very two nibble entries that `wb` wrote (both use index
`(a - 0xFF30) / 2`), and `run` never writes wave RAM. -/
theorem sound_waveram_roundtrip (s : Sound) (k v : Nat)
    (hon : s.«on» = true) (hk : k < 16) (hv : v < 256)
    (hlen : s.channel3.waveram.length = 32) :
    ((s.wb (0xFF30 + k) v).rb (0xFF30 + k)).2 = v := by
  have h30 : 0xFF30 + k - 0xFF30 = k := by omega
  have hwb3 : (s.wb (0xFF30 + k) v).channel3.waveram =
      (s.run.channel3.waveram.set (k / 2) (v >>> 4)).set (k / 2 + 1) (v &&& 0xF) := by
    unfold Sound.wb
    rw [if_neg (by simp [hon])]
    dsimp only
    rw [if_neg (by omega)]
    unfold Sound.wbDispatch
    rw [if_neg (by omega), if_neg (by omega), if_neg (by omega), if_neg (by omega),
        if_neg (by omega), if_neg (by omega), if_pos (by omega)]
    show (s.run.channel3.wb (0xFF30 + k) v).waveram = _
    unfold WaveChannel.wb
    rw [if_neg (by omega), if_neg (by omega), if_neg (by omega), if_neg (by omega),
        if_neg (by omega), if_pos (by omega)]
    show (s.run.channel3.waveram.set ((0xFF30 + k - 0xFF30) / 2) (v >>> 4)).set
        ((0xFF30 + k - 0xFF30) / 2 + 1) (v &&& 0xF) = _
    rw [h30]
  have hlen' : s.run.channel3.waveram.length = 32 := by
    rw [Sound.run_waveram]; exact hlen
  unfold Sound.rb
  dsimp only
  rw [if_neg (by omega), if_neg (by omega), if_pos (by omega)]
  rw [Sound.run_waveram, hwb3, h30]
  rw [list_getD_set_eq _ _ _ (by simp [hlen']; omega)]
  rw [list_getD_set_ne _ _ _ _ (by omega)]
  rw [list_getD_set_eq _ _ _ (by omega)]
  exact nibble_repack v hv

/-- C10: a freshly constructed APU has `on == false` and `time == 0`; while
`on == false`, `do_cycle` returns without modifying any state; and writes
cannot change `on` except a write to 0xFF26, which sets it to bit 7 of the
written value. -/
theorem sound_off_behavior (op vp n a v : Nat) (s : Sound) :
    (Sound.new op vp).«on» = false ∧ (Sound.new op vp).time = 0
    ∧ (s.«on» = false → s.do_cycle n = s)
    ∧ (a ≠ 0xFF26 → (s.wb a v).«on» = s.«on»)
    ∧ ((s.wb 0xFF26 v).«on» = (v &&& 0x80 == 0x80)) := by
  refine ⟨rfl, rfl, ?_, ?_, ?_⟩
  · intro h
    unfold Sound.do_cycle
    rw [if_pos h]
  · intro ha
    unfold Sound.wb
    by_cases hoff : s.«on» = false
    · rw [if_pos ⟨ha, hoff⟩]
    · rw [if_neg (fun h => hoff h.2)]
      dsimp only
      rw [Sound.wbDispatch_on_ne _ _ _ ha]
      split
      · exact Sound.run_on s
      · exact Sound.run_on s
  · unfold Sound.wb
    rw [if_neg (by simp)]
    dsimp only
    rw [Sound.wbDispatch_ff26]

theorem square_step_length_iter (k : Nat) (c : SquareChannel)
    (hle : c.length_enabled = true) (hk : k ≤ c.length) :
    SquareChannel.step_length^[k] c = { c with length := c.length - k } := by
  induction k generalizing c with
  | zero => rfl
  | succ n ih =>
    rw [Function.iterate_succ_apply]
    have hstep : c.step_length = { c with length := c.length - 1 } := by
      unfold SquareChannel.step_length
      rw [if_pos ⟨hle, by omega⟩]
    rw [hstep, ih { c with length := c.length - 1 } (by exact hle) (by show n ≤ c.length - 1; omega)]
    have h1 : c.length - 1 - n = c.length - (n + 1) := by omega
    rw [h1]

theorem wave_step_length_iter (k : Nat) (c : WaveChannel)
    (hle : c.length_enabled = true) (hk : k ≤ c.length) :
    WaveChannel.step_length^[k] c = { c with length := c.length - k } := by
  induction k generalizing c with
  | zero => rfl
  | succ n ih =>
    rw [Function.iterate_succ_apply]
    have hstep : c.step_length = { c with length := c.length - 1 } := by
      unfold WaveChannel.step_length
      rw [if_pos ⟨hle, by omega⟩]
    rw [hstep, ih { c with length := c.length - 1 } (by exact hle) (by show n ≤ c.length - 1; omega)]
    have h1 : c.length - 1 - n = c.length - (n + 1) := by omega
    rw [h1]

theorem noise_step_length_iter (k : Nat) (c : NoiseChannel)
    (hle : c.length_enabled = true) (hk : k ≤ c.length) :
    NoiseChannel.step_length^[k] c = { c with length := c.length - k } := by
  induction k generalizing c with
  | zero => rfl
  | succ n ih =>
    rw [Function.iterate_succ_apply]
    have hstep : c.step_length = { c with length := c.length - 1 } := by
      unfold NoiseChannel.step_length
      rw [if_pos ⟨hle, by omega⟩]
    rw [hstep, ih { c with length := c.length - 1 } (by exact hle) (by show n ≤ c.length - 1; omega)]
    have h1 : c.length - 1 - n = c.length - (n + 1) := by omega
    rw [h1]

/-- C6: for each channel kind (square, wave, noise), starting from
`enabled = true`, `length = L ≥ 1` and `length_enabled = true` with no
intervening register writes, the channel reports `on() == true` after fewer
than `L` frame-sequencer length ticks and `on() == false` after exactly `L`
ticks. -/
theorem channel_length_countdown (c1 : SquareChannel) (c3 : WaveChannel) (c4 : NoiseChannel)
    (L : Nat) (hL : 1 ≤ L)
    (h1e : c1.enabled = true) (h1l : c1.length_enabled = true) (h1L : c1.length = L)
    (h3e : c3.enabled = true) (h3l : c3.length_enabled = true) (h3L : c3.length = L)
    (h4e : c4.enabled = true) (h4l : c4.length_enabled = true) (h4L : c4.length = L) :
    ((∀ k < L, (SquareChannel.step_length^[k] c1).on = true)
      ∧ (SquareChannel.step_length^[L] c1).on = false)
    ∧ ((∀ k < L, (WaveChannel.step_length^[k] c3).on = true)
      ∧ (WaveChannel.step_length^[L] c3).on = false)
    ∧ ((∀ k < L, (NoiseChannel.step_length^[k] c4).on = true)
      ∧ (NoiseChannel.step_length^[L] c4).on = false) := by
  refine ⟨⟨?_, ?_⟩, ⟨?_, ?_⟩, ⟨?_, ?_⟩⟩
  · intro k hk
    rw [square_step_length_iter k c1 h1l (by omega)]
    simp [SquareChannel.on, h1e, h1l, h1L]
    omega
  · rw [square_step_length_iter L c1 h1l (by omega)]
    simp [SquareChannel.on, h1e, h1l, h1L]
  · intro k hk
    rw [wave_step_length_iter k c3 h3l (by omega)]
    simp [WaveChannel.on, h3e, h3l, h3L]
    omega
  · rw [wave_step_length_iter L c3 h3l (by omega)]
    simp [WaveChannel.on, h3e, h3l, h3L]
  · intro k hk
    rw [noise_step_length_iter k c4 h4l (by omega)]
    simp [NoiseChannel.on, h4e, h4l, h4L]
    omega
  · rw [noise_step_length_iter L c4 h4l (by omega)]
    simp [NoiseChannel.on, h4e, h4l, h4L]

theorem env_step_goes_up (e : VolumeEnvelope) : e.step.goes_up = e.goes_up := by
  unfold VolumeEnvelope.step
  split_ifs <;> rfl

theorem env_step_volume15 (e : VolumeEnvelope) (hg : e.goes_up = true)
    (hv : e.volume = 15) : e.step.volume = 15 := by
  unfold VolumeEnvelope.step
  by_cases h1 : 1 < e.delay
  · rw [if_pos h1]; exact hv
  · rw [if_neg h1]
    by_cases h2 : e.delay = 1
    · rw [if_pos h2]
      show (if _ then _ else _) = 15
      rw [hg, hv]
      norm_num
    · rw [if_neg h2]; exact hv

theorem env_step_volume_le (e : VolumeEnvelope) (hvol : e.volume ≤ 15) :
    e.step.volume ≤ 15 := by
  unfold VolumeEnvelope.step
  by_cases h1 : 1 < e.delay
  · rw [if_pos h1]; exact hvol
  · rw [if_neg h1]
    by_cases h2 : e.delay = 1
    · rw [if_pos h2]
      show (if _ then _ else _) ≤ 15
      by_cases h3 : e.goes_up = true ∧ e.volume < 15
      · rw [if_pos h3]
        have h5 := h3.2
        omega
      · rw [if_neg h3]
        by_cases h4 : e.goes_up = false ∧ 0 < e.volume
        · rw [if_pos h4]; omega
        · rw [if_neg h4]; exact hvol
    · rw [if_neg h2]; exact hvol

theorem env_step_initial (e : VolumeEnvelope) :
    e.step.initial_volume = e.initial_volume := by
  unfold VolumeEnvelope.step
  split_ifs <;> rfl

theorem env_wb_bounds (e : VolumeEnvelope) (a v : Nat) (hv256 : v < 256)
    (hvol : e.volume ≤ 15) (hini : e.initial_volume ≤ 15) :
    (e.wb a v).volume ≤ 15 ∧ (e.wb a v).initial_volume ≤ 15 := by
  unfold VolumeEnvelope.wb
  split_ifs with h1 h2
  · constructor <;>
    · show v >>> 4 ≤ 15
      rw [Nat.shiftRight_eq_div_pow]
      omega
  · exact ⟨hini, hini⟩
  · exact ⟨hvol, hini⟩

theorem env_iter_delay (r : Nat) (e : VolumeEnvelope) (hr : r < e.delay) :
    VolumeEnvelope.step^[r] e = { e with delay := e.delay - r } := by
  induction r generalizing e with
  | zero => rfl
  | succ n ih =>
    rw [Function.iterate_succ_apply]
    have hstep : e.step = { e with delay := e.delay - 1 } := by
      unfold VolumeEnvelope.step
      rw [if_pos (by omega)]
    rw [hstep, ih { e with delay := e.delay - 1 } (by show n < e.delay - 1; omega)]
    have h1 : e.delay - 1 - n = e.delay - (n + 1) := by omega
    rw [h1]

theorem env_step_at_one (e : VolumeEnvelope) (hd : e.delay = 1) (hg : e.goes_up = true)
    (hv : e.volume ≤ 15) :
    e.step = { e with delay := e.period, volume := min 15 (e.volume + 1) } := by
  unfold VolumeEnvelope.step
  rw [if_neg (by omega), if_pos hd]
  have hvol : (if e.goes_up = true ∧ e.volume < 15 then e.volume + 1
      else if e.goes_up = false ∧ 0 < e.volume then e.volume - 1 else e.volume)
      = min 15 (e.volume + 1) := by
    rw [hg]
    by_cases hv15 : e.volume < 15
    · rw [if_pos ⟨rfl, hv15⟩]; omega
    · rw [if_neg (fun h => hv15 h.2), if_neg (by simp)]; omega
  rw [hvol]

theorem env_iter_period (e : VolumeEnvelope) (hP : 1 ≤ e.period) (hd : e.delay = e.period)
    (hg : e.goes_up = true) (hv : e.volume ≤ 15) :
    VolumeEnvelope.step^[e.period] e
      = { e with delay := e.period, volume := min 15 (e.volume + 1) } := by
  obtain ⟨P, hP'⟩ : ∃ P, e.period = P + 1 := ⟨e.period - 1, by omega⟩
  rw [hP', Function.iterate_succ_apply']
  rw [env_iter_delay P e (by omega)]
  rw [env_step_at_one { e with delay := e.delay - P } (by show e.delay - P = 1; omega)
    (by exact hg) (by exact hv)]
  dsimp only
  rw [hP']

theorem env_iter_mul (q : Nat) (e : VolumeEnvelope) (hP : 1 ≤ e.period)
    (hd : e.delay = e.period) (hg : e.goes_up = true) (hv : e.volume ≤ 15) :
    VolumeEnvelope.step^[q * e.period] e
      = { e with delay := e.period, volume := min 15 (e.volume + q) } := by
  induction q generalizing e with
  | zero =>
    have h1 : min 15 (e.volume + 0) = e.volume := by omega
    rw [Nat.zero_mul, Function.iterate_zero_apply, h1]
    obtain ⟨p, g, d, iv, vol⟩ := e
    rw [show d = p from hd]
  | succ n ih =>
    have hmul : (n + 1) * e.period = n * e.period + e.period := by ring
    rw [hmul, Function.iterate_add_apply]
    rw [env_iter_period e hP hd hg hv]
    rw [ih { e with delay := e.period, volume := min 15 (e.volume + 1) }
      (by exact hP) (by rfl) (by exact hg) (by show min 15 (e.volume + 1) ≤ 15; omega)]
    have h1 : min 15 (min 15 (e.volume + 1) + n) = min 15 (e.volume + (n + 1)) := by omega
    show _ = _
    rw [h1]

theorem env_iter_volume15 (m : Nat) (e : VolumeEnvelope) (hg : e.goes_up = true)
    (hv : e.volume = 15) : (VolumeEnvelope.step^[m] e).volume = 15 := by
  induction m generalizing e with
  | zero => exact hv
  | succ n ih =>
    rw [Function.iterate_succ_apply]
    exact ih e.step (by rw [env_step_goes_up]; exact hg) (env_step_volume15 e hg hv)

/-- C7: the envelope volume always stays in [0, 15] (the lower bound is by
the `Nat` representation; the source uses an unsigned `u8`) under every write
and step, given the invariant that `volume` and `initial_volume` are at most
15 (true of every reachable state); moreover, after a trigger with
`initial_volume = I ≤ 15`, `period = P > 0` and `goes_up = true`, the volume
equals 15 after exactly `(15 - I) * P` envelope steps — before that, after
`q * P + r` steps (`q < 15 - I`, `r < P`) it is `I + q < 15` — and remains 15
on all later steps. -/
theorem envelope_behavior (e : VolumeEnvelope) (a v w : Nat) (hv256 : v < 256)
    (hvol : e.volume ≤ 15) (hini : e.initial_volume ≤ 15) :
    ((e.wb a v).volume ≤ 15 ∧ (e.wb a v).initial_volume ≤ 15
      ∧ e.step.volume ≤ 15 ∧ e.step.initial_volume ≤ 15)
    ∧ (w &&& 0x80 = 0x80 → e.goes_up = true → 1 ≤ e.period →
      ((VolumeEnvelope.step^[(15 - e.initial_volume) * e.period] (e.wb 0xFF14 w)).volume = 15
      ∧ (∀ m, (VolumeEnvelope.step^[(15 - e.initial_volume) * e.period + m]
          (e.wb 0xFF14 w)).volume = 15)
      ∧ (∀ q r, q < 15 - e.initial_volume → r < e.period →
          (VolumeEnvelope.step^[q * e.period + r] (e.wb 0xFF14 w)).volume
            = e.initial_volume + q))) := by
  have hwbtrig : ∀ u, u &&& 0x80 = 0x80 →
      e.wb 0xFF14 u = { e with delay := e.period, volume := e.initial_volume } := by
    intro u hu
    unfold VolumeEnvelope.wb
    rw [if_neg (by simp), if_pos ⟨by simp, hu⟩]
  constructor
  · exact ⟨(env_wb_bounds e a v hv256 hvol hini).1, (env_wb_bounds e a v hv256 hvol hini).2,
      env_step_volume_le e hvol, by rw [env_step_initial]; exact hini⟩
  · intro hw hg hP
    rw [hwbtrig w hw]
    have hfull := env_iter_mul (15 - e.initial_volume)
      { e with delay := e.period, volume := e.initial_volume }
      (by exact hP) (by rfl) (by exact hg) (by exact hini)
    have hmin : min 15 (e.initial_volume + (15 - e.initial_volume)) = 15 := by omega
    refine ⟨?_, ?_, ?_⟩
    · rw [hfull]
      show min 15 (e.initial_volume + (15 - e.initial_volume)) = 15
      exact hmin
    · intro m
      rw [Nat.add_comm, Function.iterate_add_apply, hfull]
      exact env_iter_volume15 m _ (by exact hg) (by show min 15 _ = 15; exact hmin)
    · intro q r hq hr
      rw [Nat.add_comm, Function.iterate_add_apply]
      rw [env_iter_mul q { e with delay := e.period, volume := e.initial_volume }
        (by exact hP) (by rfl) (by exact hg) (by exact hini)]
      rw [env_iter_delay r _ (by show r < e.period; omega)]
      show min 15 (e.initial_volume + q) = e.initial_volume + q
      omega

theorem square_calculate_period_of_le (c : SquareChannel) (h : ¬ 2048 < c.frequency) :
    c.calculate_period = { c with period := (2048 - c.frequency) * 4 } := by
  unfold SquareChannel.calculate_period
  rw [if_neg h]

theorem square_step_sweep_overflow_reload (c : SquareChannel)
    (hs : c.has_sweep = true) (hp : c.sweep_period ≠ 0) (hd : ¬ 1 < c.sweep_delay)
    (hadd : c.sweep_by_adding = true)
    (hle : ¬ 2048 < c.sweep_frequency)
    (hov : 2048 - (c.sweep_frequency >>> c.sweep_shift) ≤ c.sweep_frequency) :
    c.step_sweep = { c with
      sweep_delay := 0
      frequency := c.sweep_frequency
      period := (2048 - c.sweep_frequency) * 4
      sweep_frequency := 2048 } := by
  unfold SquareChannel.step_sweep
  rw [if_neg (by simp [hs]; exact hp), if_neg hd]
  try dsimp only
  rw [square_calculate_period_of_le _ (by show ¬ 2048 < c.sweep_frequency; exact hle)]
  try dsimp only
  rw [if_pos (by exact hadd),
      if_pos (by show 2048 - (c.sweep_frequency >>> c.sweep_shift) ≤ c.sweep_frequency; exact hov)]

theorem square_trigger_overflow (c : SquareChannel) (v : Nat)
    (hs : c.has_sweep = true) (hp : 0 < c.sweep_period) (hsh : 0 < c.sweep_shift)
    (hadd : c.sweep_by_adding = true) (htrig : v &&& 0x80 = 0x80)
    (hflt : (c.frequency &&& 0x00FF) ||| ((v &&& 0b0111) <<< 8) < 2048)
    (hover : 2048 ≤ ((c.frequency &&& 0x00FF) ||| ((v &&& 0b0111) <<< 8))
      + (((c.frequency &&& 0x00FF) ||| ((v &&& 0b0111) <<< 8)) >>> c.sweep_shift)) :
    c.wb 0xFF14 v = { c with
      frequency := (c.frequency &&& 0x00FF) ||| ((v &&& 0b0111) <<< 8)
      period := (2048 - ((c.frequency &&& 0x00FF) ||| ((v &&& 0b0111) <<< 8))) * 4
      length_enabled := (v &&& 0x40 == 0x40)
      enabled := true
      length := c.new_length
      sweep_frequency := 2048
      sweep_delay := 0
      volume_envelope := c.volume_envelope.wb 0xFF14 v } := by
  have hoffle : ((c.frequency &&& 0x00FF) ||| ((v &&& 0b0111) <<< 8)) >>> c.sweep_shift
      ≤ (c.frequency &&& 0x00FF) ||| ((v &&& 0b0111) <<< 8) := by
    rw [Nat.shiftRight_eq_div_pow]
    exact Nat.div_le_self _ _
  unfold SquareChannel.wb
  rw [if_neg (by simp), if_neg (by simp), if_neg (by simp), if_pos (Or.inl rfl)]
  try dsimp only
  rw [if_pos htrig]
  try dsimp only
  rw [square_calculate_period_of_le
    { c with frequency := (c.frequency &&& 0x00FF) ||| ((v &&& 0b0111) <<< 8) }
    (by show ¬ 2048 < (c.frequency &&& 0x00FF) ||| ((v &&& 0b0111) <<< 8); omega)]
  try dsimp only
  rw [if_pos ⟨hs, hp, hsh⟩]
  rw [square_step_sweep_overflow_reload _ (by exact hs) (by show c.sweep_period ≠ 0; omega)
    (by show ¬ 1 < 1; omega) (by exact hadd)
    (by show ¬ 2048 < (c.frequency &&& 0x00FF) ||| ((v &&& 0b0111) <<< 8); omega)
    (by show 2048 - (((c.frequency &&& 0x00FF) ||| ((v &&& 0b0111) <<< 8)) >>> c.sweep_shift)
          ≤ (c.frequency &&& 0x00FF) ||| ((v &&& 0b0111) <<< 8); omega)]

/-- C2, amended: for channel 1 with `sweep_period > 0`, `sweep_shift > 0`,
`sweep_by_adding = true`, and a triggered frequency `f` such that
`f + (f >> sweep_shift) ≥ 2048`, the first sweep step following the trigger
leaves `period == 0`, so the channel is audio-silenced (its `run` takes the
silent branch); however `on()` does not consult `period` and (with the length
counter disabled by the trigger write) still reports `true`. -/
theorem sweep_overflow_silences (c : SquareChannel) (v : Nat)
    (hs : c.has_sweep = true) (hp : 0 < c.sweep_period) (hsh : 0 < c.sweep_shift)
    (hadd : c.sweep_by_adding = true) (htrig : v &&& 0x80 = 0x80) (hlen : v &&& 0x40 = 0)
    (hover : 2048 ≤ ((c.frequency &&& 0x00FF) ||| ((v &&& 0b0111) <<< 8))
      + (((c.frequency &&& 0x00FF) ||| ((v &&& 0b0111) <<< 8)) >>> c.sweep_shift)) :
    ((c.wb 0xFF14 v).step_sweep).period = 0
    ∧ ((c.wb 0xFF14 v).step_sweep).on = true := by
  have hflt : (c.frequency &&& 0x00FF) ||| ((v &&& 0b0111) <<< 8) < 2048 := by
    have h1 : c.frequency &&& 0x00FF < 2 ^ 11 := lt_of_le_of_lt Nat.and_le_right (by norm_num)
    have h2 : (v &&& 0b0111) <<< 8 < 2 ^ 11 := by
      rw [Nat.shiftLeft_eq]
      have h3 : v &&& 0b0111 ≤ 7 := Nat.and_le_right
      have h4 : (v &&& 0b0111) * 2 ^ 8 ≤ 7 * 2 ^ 8 := Nat.mul_le_mul_right _ h3
      omega
    have h5 := Nat.or_lt_two_pow h1 h2
    norm_num at h5
    exact h5
  rw [square_trigger_overflow c v hs hp hsh hadd htrig hflt hover]
  rw [square_step_sweep_overflow_reload _ (by exact hs) (by show c.sweep_period ≠ 0; omega)
    (by show ¬ 1 < 0; omega) (by exact hadd) (by show ¬ 2048 < 2048; omega)
    (by show 2048 - (2048 >>> c.sweep_shift) ≤ 2048; exact Nat.sub_le _ _)]
  constructor
  · show (2048 - 2048) * 4 = 0
    norm_num
  · simp [SquareChannel.on, hlen]

/-- C8, amended: for every `run(start, end)` call on a silent square channel
(not enabled, or length expired with `length_enabled`, or `period == 0`),
after the call `last_amp == 0`; when the previous `last_amp` was nonzero the
single delta `-last_amp` is emitted at `start` and `last_amp` and `delay` are
cleared; when `last_amp` was already 0 no delta is emitted and the state —
including a possibly nonzero `delay` — is unchanged. -/
theorem square_run_silent (c : SquareChannel) (s e : Nat)
    (hsil : c.enabled = false ∨ (c.length = 0 ∧ c.length_enabled = true) ∨ c.period = 0) :
    ((c.run s e).last_amp = 0)
    ∧ (c.last_amp ≠ 0 →
        c.run s e = { c with blip := c.blip ++ [(s, -c.last_amp)], last_amp := 0, delay := 0 })
    ∧ (c.last_amp = 0 → c.run s e = c) := by
  unfold SquareChannel.run
  rw [if_pos hsil]
  by_cases h : c.last_amp ≠ 0
  · rw [if_pos h]
    exact ⟨rfl, fun _ => rfl, fun h0 => absurd h0 h⟩
  · rw [if_neg h]
    push_neg at h
    exact ⟨h, fun h1 => absurd h h1, fun _ => rfl⟩

/-- C9, amended: a write of byte `v` to 0xFF1C (NR32) sets the wave
channel's `volume_shift` to `v >> 5`, which lies in {0, ..., 7} (the code
does not mask to two bits; `run` treats the values 4..7 like 0, i.e. mute). -/
theorem wave_volume_shift_range (c : WaveChannel) (v : Nat) (hv : v < 256) :
    (c.wb 0xFF1C v).volume_shift = v >>> 5 ∧ v >>> 5 ≤ 7 := by
  constructor
  · unfold WaveChannel.wb
    rw [if_neg (by simp), if_neg (by simp), if_pos rfl]
  · rw [Nat.shiftRight_eq_div_pow]
    omega

/-- C1, code behaviour at the failing input: writing 0x23 to 0xFF31 (k = 1)
on a fresh wave channel stores the nibbles at `waveram[k / 2] = waveram[0]`
and `waveram[k / 2 + 1] = waveram[1]`, not at `waveram[2k] = waveram[2]` and
`waveram[2k + 1] = waveram[3]` as the claim (and the data model, which packs
16 bytes into all 32 nibble entries) requires: the code divides by 2 where
the intended mapping multiplies by 2, so adjacent addresses alias and entries
9..31 are unreachable. -/
theorem waveram_write_divides_index :
    ((WaveChannel.new []).wb 0xFF31 0x23).waveram.getD 0 0 = 2
    ∧ ((WaveChannel.new []).wb 0xFF31 0x23).waveram.getD 1 0 = 3
    ∧ ((WaveChannel.new []).wb 0xFF31 0x23).waveram.getD 2 0 = 0
    ∧ ((WaveChannel.new []).wb 0xFF31 0x23).waveram.getD 3 0 = 0
    ∧ ¬(((WaveChannel.new []).wb 0xFF31 0x23).waveram.getD 2 0 = 2
        ∧ ((WaveChannel.new []).wb 0xFF31 0x23).waveram.getD 3 0 = 3) := by decide

/-- C2, counterexample: channel 1 triggered with `sweep_period = 1`,
`sweep_shift = 1`, `sweep_by_adding = true` and frequency 1400 (so
`1400 + (1400 >> 1) = 2100 ≥ 2048`): after the first sweep step following the
trigger the channel's `period` is 0, but `on()` still reports `true`, not
`false` — `on()` is `enabled && (length_enabled → length ≠ 0)` and never
consults `period`. -/
theorem sweep_overflow_on_report :
    sweepDemo.enabled = true ∧ 0 < sweepDemo.sweep_period ∧ 0 < sweepDemo.sweep_shift
    ∧ sweepDemo.sweep_by_adding = true
    ∧ 2048 ≤ sweepDemo.frequency + (sweepDemo.frequency >>> sweepDemo.sweep_shift)
    ∧ (sweepDemo.step_sweep).period = 0
    ∧ (sweepDemo.step_sweep).on = true := by decide

/-- C8, counterexample: a silent square channel with `last_amp == 0` and
`delay == 7` keeps `delay == 7` across `run`; the claim's "delay == 0 holds
after the call" is false, because the code clears `delay` only inside the
`last_amp != 0` branch. -/
theorem square_run_silent_delay_kept :
    silentDemo.enabled = false ∧ silentDemo.last_amp = 0 ∧ silentDemo.delay = 7
    ∧ (silentDemo.run 0 100).delay = 7 ∧ (silentDemo.run 0 100).delay ≠ 0 := by decide

/-- C9, counterexample: writing 0xE0 to 0xFF1C stores `volume_shift = 7`,
which does not lie in {0, 1, 2, 3}. -/
theorem wave_volume_shift_out_of_range :
    ((WaveChannel.new []).wb 0xFF1C 0xE0).volume_shift = 7
    ∧ ¬(((WaveChannel.new []).wb 0xFF1C 0xE0).volume_shift = 0
       ∨ ((WaveChannel.new []).wb 0xFF1C 0xE0).volume_shift = 1
       ∨ ((WaveChannel.new []).wb 0xFF1C 0xE0).volume_shift = 2
       ∨ ((WaveChannel.new []).wb 0xFF1C 0xE0).volume_shift = 3) := by decide

/-- Witness for C2's amended theorem at the concrete trigger demo. -/
theorem sweep_overflow_silences_witness :
    sweepDemoPre.has_sweep = true ∧ 0 < sweepDemoPre.sweep_period ∧ 0 < sweepDemoPre.sweep_shift
    ∧ sweepDemoPre.sweep_by_adding = true ∧ 0x85 &&& 0x80 = 0x80 ∧ 0x85 &&& 0x40 = 0
    ∧ 2048 ≤ ((sweepDemoPre.frequency &&& 0x00FF) ||| ((0x85 &&& 0b0111) <<< 8))
        + (((sweepDemoPre.frequency &&& 0x00FF) ||| ((0x85 &&& 0b0111) <<< 8))
            >>> sweepDemoPre.sweep_shift)
    ∧ ((sweepDemoPre.wb 0xFF14 0x85).step_sweep).period = 0
    ∧ ((sweepDemoPre.wb 0xFF14 0x85).step_sweep).on = true := by
  have h := sweep_overflow_silences sweepDemoPre 0x85 (by decide) (by decide) (by decide)
    (by decide) (by decide) (by decide) (by decide)
  exact ⟨by decide, by decide, by decide, by decide, by decide, by decide, by decide, h.1, h.2⟩

/-- Witness for C3 at address 0xFF12, byte 0xAB. -/
theorem sound_register_roundtrip_witness :
    soundOnDemo.«on» = true ∧ soundOnDemo.registerdata.length = 0x17
    ∧ 0xFF10 ≤ (0xFF12 : Nat) ∧ (0xFF12 : Nat) ≤ 0xFF25
    ∧ ((soundOnDemo.wb 0xFF12 0xAB).rb 0xFF12).2 = 0xAB :=
  ⟨rfl, by decide, by decide, by decide,
   sound_register_roundtrip soundOnDemo 0xFF12 0xAB rfl (by decide) (by decide) (by decide)⟩

/-- Witness for C4 at address 0xFF11 with the APU off. -/
theorem sound_wb_off_noop_witness :
    (0xFF11 : Nat) ≠ 0xFF26 ∧ soundOffDemo.«on» = false
    ∧ soundOffDemo.wb 0xFF11 0xAB = soundOffDemo :=
  ⟨by decide, rfl, sound_wb_off_noop soundOffDemo 0xFF11 0xAB (by decide) rfl⟩

/-- Witness for C5 at k = 3, byte 0xC5. -/
theorem sound_waveram_roundtrip_witness :
    soundOnDemo.«on» = true ∧ (3 : Nat) < 16 ∧ (0xC5 : Nat) < 256
    ∧ soundOnDemo.channel3.waveram.length = 32
    ∧ ((soundOnDemo.wb (0xFF30 + 3) 0xC5).rb (0xFF30 + 3)).2 = 0xC5 :=
  ⟨rfl, by decide, by decide, by decide,
   sound_waveram_roundtrip soundOnDemo 3 0xC5 rfl (by decide) (by decide) (by decide)⟩

/-- Witness for C6 with L = 2 on all three channel kinds. -/
theorem channel_length_countdown_witness :
    (1 : Nat) ≤ 2
    ∧ squareLenDemo.enabled = true ∧ squareLenDemo.length_enabled = true
    ∧ squareLenDemo.length = 2
    ∧ waveLenDemo.enabled = true ∧ waveLenDemo.length_enabled = true ∧ waveLenDemo.length = 2
    ∧ noiseLenDemo.enabled = true ∧ noiseLenDemo.length_enabled = true ∧ noiseLenDemo.length = 2
    ∧ (SquareChannel.step_length^[1] squareLenDemo).on = true
    ∧ (SquareChannel.step_length^[2] squareLenDemo).on = false
    ∧ (WaveChannel.step_length^[1] waveLenDemo).on = true
    ∧ (WaveChannel.step_length^[2] waveLenDemo).on = false
    ∧ (NoiseChannel.step_length^[1] noiseLenDemo).on = true
    ∧ (NoiseChannel.step_length^[2] noiseLenDemo).on = false := by
  have h := channel_length_countdown squareLenDemo waveLenDemo noiseLenDemo 2 (by decide)
    rfl rfl rfl rfl rfl rfl rfl rfl rfl
  exact ⟨by decide, rfl, rfl, rfl, rfl, rfl, rfl, rfl, rfl, rfl,
    h.1.1 1 (by decide), h.1.2, h.2.1.1 1 (by decide), h.2.1.2, h.2.2.1 1 (by decide), h.2.2.2⟩

/-- Witness for C7 with initial volume 13 and period 2: 15 is reached after
(15 - 13) * 2 = 4 steps and kept. -/
theorem envelope_behavior_witness :
    (0x34 : Nat) < 256 ∧ envDemo.volume ≤ 15 ∧ envDemo.initial_volume ≤ 15
    ∧ (envDemo.wb 0xFF12 0x34).volume ≤ 15
    ∧ (VolumeEnvelope.step^[(15 - envDemo.initial_volume) * envDemo.period]
        (envDemo.wb 0xFF14 0x80)).volume = 15
    ∧ (VolumeEnvelope.step^[(15 - envDemo.initial_volume) * envDemo.period + 5]
        (envDemo.wb 0xFF14 0x80)).volume = 15
    ∧ (VolumeEnvelope.step^[1 * envDemo.period + 1]
        (envDemo.wb 0xFF14 0x80)).volume = envDemo.initial_volume + 1 := by
  have h := envelope_behavior envDemo 0xFF12 0x34 0x80 (by decide) (by decide) (by decide)
  have h2 := h.2 (by decide) rfl (by decide)
  exact ⟨by decide, by decide, by decide, h.1.1, h2.1, h2.2.1 5, h2.2.2 1 1 (by decide) (by decide)⟩

/-- Witness for C8's amended theorem on a disabled channel with residual
amplitude 5. -/
theorem square_run_silent_witness :
    (flushDemo.enabled = false ∨ (flushDemo.length = 0 ∧ flushDemo.length_enabled = true)
      ∨ flushDemo.period = 0)
    ∧ flushDemo.last_amp ≠ 0
    ∧ (flushDemo.run 0 100).last_amp = 0
    ∧ flushDemo.run 0 100 = { flushDemo with
        blip := flushDemo.blip ++ [(0, -flushDemo.last_amp)], last_amp := 0, delay := 0 } := by
  have h := square_run_silent flushDemo 0 100 (Or.inl rfl)
  exact ⟨Or.inl rfl, by decide, h.1, h.2.1 (by decide)⟩

/-- Witness for C9's amended theorem at byte 0x40 (volume_shift 2). -/
theorem wave_volume_shift_range_witness :
    (0x40 : Nat) < 256 ∧ ((WaveChannel.new []).wb 0xFF1C 0x40).volume_shift = 0x40 >>> 5
    ∧ 0x40 >>> 5 ≤ 7 := by
  have h := wave_volume_shift_range (WaveChannel.new []) 0x40 (by decide)
  exact ⟨by decide, h.1, h.2⟩

/-- Witness for C10 on a fresh APU. -/
theorem sound_off_behavior_witness :
    soundOffDemo.«on» = false ∧ soundOffDemo.time = 0
    ∧ soundOffDemo.do_cycle 3 = soundOffDemo
    ∧ (soundOffDemo.wb 0xFF11 0xAB).«on» = soundOffDemo.«on»
    ∧ ((soundOffDemo.wb 0xFF26 0x80).«on» = (0x80 &&& 0x80 == 0x80)) := by
  have h := sound_off_behavior 5 9 3 0xFF11 0xAB soundOffDemo
  exact ⟨h.1, h.2.1, h.2.2.1 rfl, h.2.2.2.1 (by decide), h.2.2.2.2⟩
